import Mathlib

/-!
Shallow embedding of the BoomLog logging library (src/BoomLog.hpp) and
proofs of the specified properties.

Modelling conventions:
- The C++ enum `LEVELS` is an inductive type; `levelVal` gives the numeric
  bit value of each enumerator (DBG=1, INFO=2, WARNING=4, ERR=8, CRITICAL=16).
- `std::chrono::time_point` is modelled as a broken-down calendar time `Tm`
  (the data `localtime_s` produces and `put_time` formats); `Event`
  construction takes the timestamp explicitly (in the C++ it defaults to
  the current clock reading, an input of the program run).
- `std::map<std::string, Stream*>` is modelled as an association list kept
  strictly sorted by key (the representation invariant of `std::map`);
  `mapFind` / `mapInsert` / `mapErase` embed `find`, `operator[]`-assignment
  and `erase`.
- A `Stream` object is a record: its filter mask `levels`, its concrete
  variant (`TextFileStream` with its filename, `ConsoleStream`,
  `ArchiveStream`), and `handled`, the list of events for which the virtual
  `handle` was invoked.  `handled` is exactly `ArchiveStream::events` for the
  archive variant; for the other variants it is the observation of the
  virtual call (the unit tests observe `handle` the same way, via a capturing
  `TestStream`).  The side effects of the file and console variants are
  modelled on an explicit `World` (file system contents, console output, and
  an `openable` predicate saying which files the OS lets us open).
- `Log` is a lazily created singleton; its mutable state (`streams` map and
  the static `showDebug` flag) is the record `LogState`, and the compile-time
  `SHOW_DEBUG` macro is the parameter `buildDebug` of `Log.log`.
-/

/-- The five message levels of `enum LEVELS` in BoomLog.hpp. -/
inductive LEVELS where
  | DBG
  | INFO
  | WARNING
  | ERR
  | CRITICAL
deriving DecidableEq, Repr

/-- Numeric value of each enumerator: DBG = 1, INFO = 2, WARNING = 4,
ERR = 8, CRITICAL = 16. -/
def levelVal : LEVELS → Nat
  | .DBG => 1
  | .INFO => 2
  | .WARNING => 4
  | .ERR => 8
  | .CRITICAL => 16

/-- `const int ALL_LEVELS = 31`. -/
def ALL_LEVELS : Nat := 31

/-- Broken-down calendar time, the data `localtime_s` yields from a
`time_point` and `put_time` formats. -/
structure Tm where
  year : Nat
  month : Nat
  day : Nat
  hour : Nat
  minute : Nat
  second : Nat
deriving DecidableEq, Repr

/-- Zero-pad a number to two digits, as the `%m/%d/%H/%M/%S` conversions do. -/
def pad2 (n : Nat) : String :=
  if n < 10 then "0" ++ toString n else toString n

/-- Zero-pad a year to four digits, as the `%Y` conversion does. -/
def pad4 (n : Nat) : String :=
  if n < 10 then "000" ++ toString n
  else if n < 100 then "00" ++ toString n
  else if n < 1000 then "0" ++ toString n
  else toString n

/-- `put_time` with the fixed format string `"%Y/%m/%d/%H:%M:%S - "` used by
`Event::toString`. -/
def formatTimestamp (t : Tm) : String :=
  pad4 t.year ++ "/" ++ pad2 t.month ++ "/" ++ pad2 t.day ++ "/" ++
    pad2 t.hour ++ ":" ++ pad2 t.minute ++ ":" ++ pad2 t.second ++ " - "

/-- One log event (`class Event`): timestamp, level, message, source, code. -/
structure Event where
  timestamp : Tm
  level : LEVELS
  msg : String
  source : String
  code : String
deriving DecidableEq, Repr

/-- The default constructor `Event()`: level INFO, default-constructed
(empty) strings, default-constructed time point (the clock epoch). -/
def Event.defaultCtor : Event :=
  { timestamp := ⟨1970, 1, 1, 0, 0, 0⟩
    level := LEVELS.INFO
    msg := ""
    source := ""
    code := "" }

/-- The `switch (level)` at the top of `Event::toString` choosing the
three-character level tag. -/
def Event.levelSymbol : LEVELS → String
  | .DBG => " # "
  | .INFO => "   "
  | .WARNING => " ! "
  | .ERR => "!! "
  | .CRITICAL => "!!!"

/-- `Event::toString`: level symbol, formatted timestamp, then `[<code>] `
when code is non-empty, then the message, then ` (from <source>)` when
source is non-empty. -/
def Event.toString (e : Event) : String :=
  let resultA := Event.levelSymbol e.level ++ formatTimestamp e.timestamp
  let resultB := if e.code ≠ "" then resultA ++ "[" ++ e.code ++ "] " else resultA
  let resultC := resultB ++ e.msg
  if e.source ≠ "" then resultC ++ " (from " ++ e.source ++ ")" else resultC

/-- The concrete `Stream` variant: `TextFileStream` (with its filename
member `file`), `ConsoleStream`, or `ArchiveStream`. -/
inductive StreamKind where
  | textFile (file : String)
  | console
  | archive
deriving DecidableEq, Repr

/-- A `Stream` object: the filter mask `levels`, the concrete variant, and
`handled`, the ordered list of events for which the virtual `handle` was
invoked (this is `ArchiveStream::events` for the archive variant and the
observation of the virtual call for the others). -/
structure StreamObj where
  levels : Nat
  kind : StreamKind
  handled : List Event
deriving DecidableEq, Repr

/-- The base-class constructor `Stream() : levels(ALL_LEVELS)`. -/
def Stream.mkStream (kind : StreamKind) : StreamObj :=
  { levels := ALL_LEVELS, kind := kind, handled := [] }

/-- `Stream::setLevels`. -/
def Stream.setLevels (s : StreamObj) (levels : Nat) : StreamObj :=
  { s with levels := levels }

/-- `TextFileStream(const std::string& fileName = "Log.txt")`: `none` models
calling the constructor without an argument, which uses the default
argument `"Log.txt"`. -/
def TextFileStream.ctor (fileName : Option String) : StreamObj :=
  Stream.mkStream (StreamKind.textFile (fileName.getD ("Log.txt")))

/-- Construction of a `ConsoleStream` (default `Stream` constructor). -/
def ConsoleStream.ctor : StreamObj :=
  Stream.mkStream StreamKind.console

/-- Construction of an `ArchiveStream` (default `Stream` constructor). -/
def ArchiveStream.ctor : StreamObj :=
  Stream.mkStream StreamKind.archive

/-- The file contents of the process's file system: filename to contents. -/
def FS : Type := List (String × String)

/-- Append `s` to the contents of file `f` (creating the file when absent),
the effect of writing through an `std::fstream` opened with `app | out`. -/
def fsAppend : List (String × String) → String → String → List (String × String)
  | [], f, s => [(f, s)]
  | (g, c) :: rest, f, s =>
    if f = g then (g, c ++ s) :: rest else (g, c) :: fsAppend rest f s

/-- The outside world a dispatch acts on: which files the OS lets the
process open, the file system contents, and what has been written to
standard output. -/
structure World where
  openable : String → Bool
  fs : List (String × String)
  console : String

/-- The virtual `handle(event)` of each concrete stream.
`TextFileStream::handle` opens the file in append mode, writes the
rendered event when the open succeeded, and closes the file before
returning; a failed open writes nothing (the `fstream` raises no error).
`ConsoleStream::handle` writes the rendered event to standard output.
`ArchiveStream::handle` stores a copy of the event.  In every case the
event is recorded in the invocation journal `handled`. -/
def Stream.handle (w : World) (s : StreamObj) (e : Event) : World × StreamObj :=
  let s' : StreamObj := { s with handled := s.handled ++ [e] }
  match s.kind with
  | StreamKind.textFile file =>
    (if w.openable file then { w with fs := fsAppend w.fs file (Event.toString e) } else w, s')
  | StreamKind.console => ({ w with console := w.console ++ Event.toString e }, s')
  | StreamKind.archive => (w, s')

/-- `Stream::call`: invoke `handle` exactly when
`(levels & event.level) == event.level`. -/
def Stream.call (w : World) (s : StreamObj) (e : Event) : World × StreamObj :=
  if s.levels &&& levelVal e.level = levelVal e.level then Stream.handle w s e
  else (w, s)

/-- Lexicographic comparison of character lists, the order of
`std::string::operator<` used by `std::map<std::string, Stream*>`. -/
def strLtAux : List Char → List Char → Bool
  | _, [] => false
  | [], _ :: _ => true
  | a :: as, b :: bs =>
    if a < b then true else if b < a then false else strLtAux as bs

/-- `std::string` comparison: lexicographic on the characters. -/
def strLt (a b : String) : Bool := strLtAux a.data b.data

/-- `std::map::find` on the sorted association list (key lookup). -/
def mapFind {α : Type} : List (String × α) → String → Option α
  | [], _ => none
  | (k', v') :: rest, k => if k = k' then some v' else mapFind rest k

/-- `streams[name] = stream`: insert or assign, keeping the list strictly
sorted by key, as `std::map` does. -/
def mapInsert {α : Type} : List (String × α) → String → α → List (String × α)
  | [], k, v => [(k, v)]
  | (k', v') :: rest, k, v =>
    if strLt k k' then (k, v) :: (k', v') :: rest
    else if k = k' then (k, v) :: rest
    else (k', v') :: mapInsert rest k v

/-- `std::map::erase(key)`: drop the entry with the given key. -/
def mapErase {α : Type} : List (String × α) → String → List (String × α)
  | [], _ => []
  | (k', v') :: rest, k => if k = k' then rest else (k', v') :: mapErase rest k

/-- The mutable state of the `Log` singleton: the `streams` map and the
static `showDebug` flag. -/
structure LogState where
  streams : List (String × StreamObj)
  showDebug : Bool
deriving Repr

/-- `Log::getStream`. -/
def Log.getStream (st : LogState) (name : String) : Option StreamObj :=
  mapFind st.streams name

/-- `Log::addStream`. -/
def Log.addStream (st : LogState) (name : String) (stream : StreamObj) : LogState :=
  { st with streams := mapInsert st.streams name stream }

/-- `Log::removeStream`: look the name up, erase it when found, and return
the looked-up stream together with the new state. -/
def Log.removeStream (st : LogState) (name : String) : Option StreamObj × LogState :=
  match Log.getStream st name with
  | some r => (some r, { st with streams := mapErase st.streams name })
  | none => (none, st)

/-- `Log::forceDebug`. -/
def Log.forceDebug (st : LogState) (b : Bool) : LogState :=
  { st with showDebug := b }

/-- The `for (auto s : inst->streams) s.second->call(e);` loop of
`Log::log`: call every registered stream in map order, threading the
world through the side effects. -/
def Log.dispatch : World → List (String × StreamObj) → Event → World × List (String × StreamObj)
  | w, [], _ => (w, [])
  | w, (n, s) :: rest, e =>
    let r1 := Stream.call w s e
    let r2 := Log.dispatch r1.1 rest e
    (r2.1, (n, r1.2) :: r2.2)

/-- `Log::log`: compute `debugVisible` (the static `showDebug` flag, forced
to `true` when the build defines `SHOW_DEBUG`, here the parameter
`buildDebug`); when `level != DBG || debugVisible`, construct one `Event`
with the current timestamp and call every registered stream; otherwise do
nothing. -/
def Log.log (buildDebug : Bool) (w : World) (st : LogState) (level : LEVELS)
    (msg source code : String) (ts : Tm) : World × LogState :=
  let debugVisible := st.showDebug || buildDebug
  if level ≠ LEVELS.DBG ∨ debugVisible = true then
    let e : Event := ⟨ts, level, msg, source, code⟩
    let r := Log.dispatch w st.streams e
    (r.1, { st with streams := r.2 })
  else (w, st)

/-- `Log::debug`. -/
def Log.debug (buildDebug : Bool) (w : World) (st : LogState)
    (msg source code : String) (ts : Tm) : World × LogState :=
  Log.log buildDebug w st LEVELS.DBG msg source code ts

/-- `Log::info`. -/
def Log.info (buildDebug : Bool) (w : World) (st : LogState)
    (msg source code : String) (ts : Tm) : World × LogState :=
  Log.log buildDebug w st LEVELS.INFO msg source code ts

/-- `Log::warning`. -/
def Log.warning (buildDebug : Bool) (w : World) (st : LogState)
    (msg source code : String) (ts : Tm) : World × LogState :=
  Log.log buildDebug w st LEVELS.WARNING msg source code ts

/-- `Log::error`. -/
def Log.error (buildDebug : Bool) (w : World) (st : LogState)
    (msg source code : String) (ts : Tm) : World × LogState :=
  Log.log buildDebug w st LEVELS.ERR msg source code ts

/-- `Log::critical`. -/
def Log.critical (buildDebug : Bool) (w : World) (st : LogState)
    (msg source code : String) (ts : Tm) : World × LogState :=
  Log.log buildDebug w st LEVELS.CRITICAL msg source code ts

/-- The state `Log::getInstance` builds on first use: a fresh `Log` with a
`TextFileStream` on `"log.txt"` registered as `"defaultTextFile"` and a
`ConsoleStream` registered as `"defaultConsole"`. -/
def Log.initState : LogState :=
  Log.addStream
    (Log.addStream { streams := [], showDebug := false }
      "defaultTextFile" (TextFileStream.ctor (some ("log.txt"))))
    "defaultConsole" ConsoleStream.ctor

/-- `Log::getInstance`: every static member of `Log` first obtains the
singleton through this; the first call (state `none`) creates and seeds
the instance. -/
def Log.getInstance (inst : Option LogState) : LogState :=
  match inst with
  | none => Log.initState
  | some i => i

/-- The representation invariant of `std::map`: the association list is
strictly sorted by key (hence keys are unique). -/
abbrev StreamsWF (ss : List (String × StreamObj)) : Prop :=
  List.Pairwise (fun p q => strLt p.1 q.1 = true) ss

/-! ### Order lemmas for the string comparison -/

theorem strLtAux_irrefl : ∀ x : List Char, strLtAux x x = false
  | [] => rfl
  | a :: as => by simp [strLtAux, lt_irrefl, strLtAux_irrefl as]

theorem strLtAux_trans : ∀ x y z : List Char,
    strLtAux x y = true → strLtAux y z = true → strLtAux x z = true := by
  intro x
  induction x with
  | nil =>
    intro y z h1 h2
    cases y with
    | nil => simp [strLtAux] at h1
    | cons b bs =>
      cases z with
      | nil => simp [strLtAux] at h2
      | cons c cs => simp [strLtAux]
  | cons a as ih =>
    intro y z h1 h2
    cases y with
    | nil => simp [strLtAux] at h1
    | cons b bs =>
      cases z with
      | nil => simp [strLtAux] at h2
      | cons c cs =>
        simp only [strLtAux] at h1 h2 ⊢
        rcases lt_trichotomy a b with hab | hab | hab
        · rcases lt_trichotomy b c with hbc | hbc | hbc
          · simp [lt_trans hab hbc]
          · subst hbc; simp [hab]
          · simp [lt_asymm hbc, hbc] at h2
        · subst hab
          simp only [lt_irrefl, if_false] at h1
          rcases lt_trichotomy a c with hac | hac | hac
          · simp [hac]
          · subst hac
            simp only [lt_irrefl, if_false] at h2 ⊢
            exact ih bs cs h1 h2
          · simp [lt_asymm hac, hac] at h2
        · simp [lt_asymm hab, hab] at h1

theorem strLtAux_total : ∀ x y : List Char,
    strLtAux x y = false → x ≠ y → strLtAux y x = true := by
  intro x
  induction x with
  | nil =>
    intro y h1 hne
    cases y with
    | nil => exact absurd rfl hne
    | cons b bs => simp [strLtAux] at h1
  | cons a as ih =>
    intro y h1 hne
    cases y with
    | nil => simp [strLtAux]
    | cons b bs =>
      simp only [strLtAux] at h1 ⊢
      rcases lt_trichotomy a b with hab | hab | hab
      · simp [hab] at h1
      · subst hab
        simp only [lt_irrefl, if_false] at h1 ⊢
        refine ih bs h1 ?_
        intro hh
        exact hne (by rw [hh])
      · simp [hab]

theorem strLt_irrefl (a : String) : strLt a a = false :=
  strLtAux_irrefl a.data

theorem strLt_trans {a b c : String} (h1 : strLt a b = true) (h2 : strLt b c = true) :
    strLt a c = true :=
  strLtAux_trans a.data b.data c.data h1 h2

theorem strLt_total {a b : String} (h1 : strLt a b = false) (hne : a ≠ b) :
    strLt b a = true := by
  refine strLtAux_total a.data b.data h1 ?_
  intro hd
  apply hne
  cases a
  cases b
  exact congrArg String.mk (by simpa using hd)

theorem strLt_ne {a b : String} (h : strLt a b = true) : a ≠ b := by
  intro hab
  subst hab
  rw [strLt_irrefl] at h
  exact Bool.noConfusion h

/-! ### Lemmas about the sorted association-list map -/

theorem mapFind_insert_self {α : Type} (ss : List (String × α)) (k : String) (v : α) :
    mapFind (mapInsert ss k v) k = some v := by
  induction ss with
  | nil => simp [mapInsert, mapFind]
  | cons p rest ih =>
    obtain ⟨k', v'⟩ := p
    simp only [mapInsert]
    split_ifs with h1 h2
    · simp [mapFind]
    · simp [mapFind]
    · simp [mapFind, h2, ih]

theorem mem_mapInsert {α : Type} (ss : List (String × α)) (k : String) (v : α) :
    ∀ p ∈ mapInsert ss k v, p = (k, v) ∨ p ∈ ss := by
  induction ss with
  | nil => simp [mapInsert]
  | cons q rest ih =>
    obtain ⟨k', v'⟩ := q
    intro p hp
    simp only [mapInsert] at hp
    split_ifs at hp with h1 h2
    · rcases List.mem_cons.mp hp with rfl | hp'
      · exact Or.inl rfl
      · exact Or.inr hp'
    · rcases List.mem_cons.mp hp with rfl | hp'
      · exact Or.inl rfl
      · exact Or.inr (List.mem_cons_of_mem _ hp')
    · rcases List.mem_cons.mp hp with rfl | hp'
      · exact Or.inr (List.mem_cons_self _ _)
      · rcases ih p hp' with h | h
        · exact Or.inl h
        · exact Or.inr (List.mem_cons_of_mem _ h)

theorem self_mem_mapInsert {α : Type} (ss : List (String × α)) (k : String) (v : α) :
    (k, v) ∈ mapInsert ss k v := by
  induction ss with
  | nil => simp [mapInsert]
  | cons q rest ih =>
    obtain ⟨k', v'⟩ := q
    simp only [mapInsert]
    split_ifs with h1 h2
    · exact List.mem_cons_self _ _
    · exact List.mem_cons_self _ _
    · exact List.mem_cons_of_mem _ ih

theorem pairwise_mapInsert {α : Type} (ss : List (String × α)) (k : String) (v : α)
    (h : List.Pairwise (fun p q => strLt p.1 q.1 = true) ss) :
    List.Pairwise (fun p q => strLt p.1 q.1 = true) (mapInsert ss k v) := by
  induction ss with
  | nil => simp [mapInsert]
  | cons p rest ih =>
    obtain ⟨k', v'⟩ := p
    rw [List.pairwise_cons] at h
    obtain ⟨hhead, htail⟩ := h
    simp only [mapInsert]
    split_ifs with h1 h2
    · refine List.Pairwise.cons ?_ (List.Pairwise.cons hhead htail)
      intro q hq
      rcases List.mem_cons.mp hq with rfl | hq'
      · exact h1
      · exact strLt_trans h1 (hhead q hq')
    · subst h2
      exact List.Pairwise.cons hhead htail
    · refine List.Pairwise.cons ?_ (ih htail)
      intro q hq
      rcases mem_mapInsert rest k v q hq with rfl | hq'
      · exact strLt_total (Bool.not_eq_true _ ▸ eq_false_of_ne_true h1) h2
      · exact hhead q hq'

theorem mapErase_sublist {α : Type} (ss : List (String × α)) (k : String) :
    List.Sublist (mapErase ss k) ss := by
  induction ss with
  | nil => simp [mapErase]
  | cons p rest ih =>
    obtain ⟨k', v'⟩ := p
    simp only [mapErase]
    split_ifs with h1
    · exact List.sublist_cons_self _ _
    · exact List.Sublist.cons₂ _ ih

theorem mapFind_eq_none {α : Type} (ss : List (String × α)) (k : String)
    (h : ∀ p ∈ ss, p.1 ≠ k) : mapFind ss k = none := by
  induction ss with
  | nil => rfl
  | cons p rest ih =>
    obtain ⟨k', v'⟩ := p
    have hk : k ≠ k' := fun hh => h (k', v') (List.mem_cons_self _ _) hh.symm
    simp only [mapFind, if_neg hk]
    exact ih fun q hq => h q (List.mem_cons_of_mem _ hq)

theorem mapFind_mapErase {α : Type} (ss : List (String × α)) (k : String)
    (h : List.Pairwise (fun p q => strLt p.1 q.1 = true) ss) :
    mapFind (mapErase ss k) k = none := by
  induction ss with
  | nil => rfl
  | cons p rest ih =>
    obtain ⟨k', v'⟩ := p
    rw [List.pairwise_cons] at h
    obtain ⟨hhead, htail⟩ := h
    simp only [mapErase]
    split_ifs with h1
    · subst h1
      exact mapFind_eq_none rest k fun q hq => (strLt_ne (hhead q hq)).symm
    · simp only [mapFind, if_neg h1]
      exact ih htail

theorem filter_key_length_le_one {α : Type} (ss : List (String × α)) (k : String)
    (h : List.Pairwise (fun p q => strLt p.1 q.1 = true) ss) :
    (ss.filter fun p => p.1 == k).length ≤ 1 := by
  induction ss with
  | nil => simp
  | cons p rest ih =>
    obtain ⟨k', v'⟩ := p
    rw [List.pairwise_cons] at h
    obtain ⟨hhead, htail⟩ := h
    by_cases hk : k' = k
    · subst hk
      have hrest : (rest.filter fun p => p.1 == k') = [] := by
        rw [List.filter_eq_nil_iff]
        intro q hq
        simp only [beq_iff_eq]
        exact (strLt_ne (hhead q hq)).symm
      simp [hrest]
    · simp only [List.filter_cons]
      rw [if_neg (by simp [hk])]
      exact ih htail

theorem filter_key_mapInsert_length {α : Type} (ss : List (String × α)) (k : String) (v : α)
    (h : List.Pairwise (fun p q => strLt p.1 q.1 = true) ss) :
    ((mapInsert ss k v).filter fun p => p.1 == k).length = 1 := by
  refine le_antisymm (filter_key_length_le_one _ _ (pairwise_mapInsert ss k v h)) ?_
  have hmem : (k, v) ∈ (mapInsert ss k v).filter fun p => p.1 == k :=
    List.mem_filter.mpr ⟨self_mem_mapInsert ss k v, by simp⟩
  exact List.length_pos_of_mem hmem

/-! ### Lemmas about the dispatch loop -/

theorem handle_snd (w : World) (s : StreamObj) (e : Event) :
    (Stream.handle w s e).2 = { s with handled := s.handled ++ [e] } := by
  obtain ⟨lv, kind, hd⟩ := s
  cases kind <;> rfl

theorem call_snd (w : World) (s : StreamObj) (e : Event) :
    (Stream.call w s e).2 =
      if s.levels &&& levelVal e.level = levelVal e.level
      then { s with handled := s.handled ++ [e] } else s := by
  simp only [Stream.call]
  split_ifs with h
  · exact handle_snd w s e
  · rfl

theorem dispatch_snd (w : World) (ss : List (String × StreamObj)) (e : Event) :
    (Log.dispatch w ss e).2 =
      ss.map fun p =>
        (p.1,
         if p.2.levels &&& levelVal e.level = levelVal e.level
         then { p.2 with handled := p.2.handled ++ [e] } else p.2) := by
  induction ss generalizing w with
  | nil => rfl
  | cons p rest ih =>
    obtain ⟨n, s⟩ := p
    simp only [Log.dispatch, List.map_cons]
    rw [ih, call_snd]

theorem log_visible (buildDebug : Bool) (w : World) (st : LogState) (level : LEVELS)
    (msg source code : String) (ts : Tm)
    (h : level ≠ LEVELS.DBG ∨ (st.showDebug || buildDebug) = true) :
    Log.log buildDebug w st level msg source code ts =
      ((Log.dispatch w st.streams ⟨ts, level, msg, source, code⟩).1,
       { st with streams := (Log.dispatch w st.streams ⟨ts, level, msg, source, code⟩).2 }) := by
  simp only [Log.log]
  rw [if_pos h]

/-! ### Claim theorems -/

/-- C2: rendering an Event produces level symbol, then the timestamp
formatted as YYYY/MM/DD/HH:MM:SS followed by " - ", then the optional
code segment, then the message (then the optional source suffix); the
level symbol is the fixed 3-character tag per level, and the concrete
WARNING event of the unit test renders to exactly
" ! 2000/01/01/12:00:00 - Test Message". -/
theorem c2_render_format :
    (Event.levelSymbol LEVELS.DBG = " # " ∧ Event.levelSymbol LEVELS.INFO = "   " ∧
     Event.levelSymbol LEVELS.WARNING = " ! " ∧ Event.levelSymbol LEVELS.ERR = "!! " ∧
     Event.levelSymbol LEVELS.CRITICAL = "!!!") ∧
    (∀ e : Event, e.code = "" → e.source = "" →
        Event.toString e = Event.levelSymbol e.level ++ formatTimestamp e.timestamp ++ e.msg) ∧
    Event.toString ⟨⟨2000, 1, 1, 12, 0, 0⟩, LEVELS.WARNING, "Test Message", "", ""⟩ =
      " ! 2000/01/01/12:00:00 - Test Message" := by
  refine ⟨⟨rfl, rfl, rfl, rfl, rfl⟩, ?_, by decide⟩
  intro e h1 h2
  simp [Event.toString, h1, h2]

/-- Witness for C2: the general format equation applied to a concrete
INFO event with empty code and source. -/
theorem c2_render_format_witness :
    Event.toString ⟨⟨2001, 2, 3, 4, 5, 6⟩, LEVELS.INFO, "info_msg", "", ""⟩ =
      "   2001/02/03/04:05:06 - info_msg" :=
  (c2_render_format.2.1 ⟨⟨2001, 2, 3, 4, 5, 6⟩, LEVELS.INFO, "info_msg", "", ""⟩ rfl rfl).trans
    (by decide)

/-- C3: the rendered string carries the segment "[code] " between the
timestamp separator and the message exactly when code is non-empty, and
the suffix " (from source)" after the message exactly when source is
non-empty; the two segments are independent of each other. -/
theorem c3_optional_segments (e : Event) :
    (e.code ≠ "" → e.source ≠ "" →
        Event.toString e = Event.levelSymbol e.level ++ formatTimestamp e.timestamp ++
          "[" ++ e.code ++ "] " ++ e.msg ++ " (from " ++ e.source ++ ")") ∧
    (e.code ≠ "" → e.source = "" →
        Event.toString e = Event.levelSymbol e.level ++ formatTimestamp e.timestamp ++
          "[" ++ e.code ++ "] " ++ e.msg) ∧
    (e.code = "" → e.source ≠ "" →
        Event.toString e = Event.levelSymbol e.level ++ formatTimestamp e.timestamp ++
          e.msg ++ " (from " ++ e.source ++ ")") ∧
    (e.code = "" → e.source = "" →
        Event.toString e = Event.levelSymbol e.level ++ formatTimestamp e.timestamp ++ e.msg) := by
  refine ⟨fun h1 h2 => ?_, fun h1 h2 => ?_, fun h1 h2 => ?_, fun h1 h2 => ?_⟩ <;>
    simp [Event.toString, h1, h2]

/-- Witness for C3: the four branches applied to the concrete events of
SECTION "Optional Formatting" of the unit test. -/
theorem c3_optional_segments_witness :
    Event.toString ⟨⟨2000, 1, 1, 12, 0, 0⟩, LEVELS.INFO, "info_msg", "UnitTest", "C0002"⟩ =
      "   2000/01/01/12:00:00 - [C0002] info_msg (from UnitTest)" ∧
    Event.toString ⟨⟨2000, 1, 1, 12, 0, 0⟩, LEVELS.INFO, "info_msg", "", "C0001"⟩ =
      "   2000/01/01/12:00:00 - [C0001] info_msg" ∧
    Event.toString ⟨⟨2000, 1, 1, 12, 0, 0⟩, LEVELS.INFO, "info_msg", "UnitTest", ""⟩ =
      "   2000/01/01/12:00:00 - info_msg (from UnitTest)" ∧
    Event.toString ⟨⟨2000, 1, 1, 12, 0, 0⟩, LEVELS.INFO, "info_msg", "", ""⟩ =
      "   2000/01/01/12:00:00 - info_msg" :=
  ⟨((c3_optional_segments _).1 (by decide) (by decide)).trans (by decide),
   ((c3_optional_segments _).2.1 (by decide) (by decide)).trans (by decide),
   ((c3_optional_segments _).2.2.1 (by decide) (by decide)).trans (by decide),
   ((c3_optional_segments _).2.2.2 (by decide) (by decide)).trans (by decide)⟩

/-- C6 counterexample: a TextFileStream constructed without a filename does
NOT hold the filename "log.txt" (the default argument is "Log.txt" with a
capital L). -/
theorem c6_default_filename_counterexample :
    ¬ (TextFileStream.ctor none).kind = StreamKind.textFile ("log.txt") := by decide

/-- C6 amended: a TextFileStream constructed without specifying a filename
holds the default filename "Log.txt". -/
theorem c6_default_filename_amended :
    (TextFileStream.ctor none).kind = StreamKind.textFile ("Log.txt") := by decide

/-- C8: the first call to getInstance creates the registry seeded with
exactly two destinations, a file destination under "defaultTextFile" and a
console destination under "defaultConsole", both with filter mask
ALL_LEVELS, which equals 31, the bitwise OR of the five level values. -/
theorem c8_default_seeding :
    Log.getInstance none = Log.initState ∧
    Log.initState.streams =
      [("defaultConsole", { levels := ALL_LEVELS, kind := StreamKind.console, handled := [] }),
       ("defaultTextFile",
        { levels := ALL_LEVELS, kind := StreamKind.textFile ("log.txt"), handled := [] })] ∧
    ALL_LEVELS = 31 ∧
    (levelVal LEVELS.DBG ||| levelVal LEVELS.INFO ||| levelVal LEVELS.WARNING |||
      levelVal LEVELS.ERR ||| levelVal LEVELS.CRITICAL) = ALL_LEVELS :=
  ⟨rfl, by decide, rfl, by decide⟩

/-- C10: a default-constructed Event has level INFO and empty message,
source and code, so it renders as the INFO symbol followed by the
formatted timestamp and nothing else. -/
theorem c10_default_event :
    Event.defaultCtor.level = LEVELS.INFO ∧ Event.defaultCtor.msg = "" ∧
    Event.defaultCtor.source = "" ∧ Event.defaultCtor.code = "" ∧
    Event.toString Event.defaultCtor =
      Event.levelSymbol LEVELS.INFO ++ formatTimestamp Event.defaultCtor.timestamp :=
  ⟨rfl, rfl, rfl, rfl, by decide⟩

theorem removeStream_found (st : LogState) (name : String) (d : StreamObj)
    (h : Log.getStream st name = some d) :
    Log.removeStream st name = (some d, { st with streams := mapErase st.streams name }) := by
  simp only [Log.removeStream, h]

/-- C1: for every log call whose level is not suppressed by debug gating,
every currently registered destination is offered the event exactly once,
and a destination's handle is invoked, appending the event to its journal,
if and only if the bit of the event's level is set in its mask; the others
are left untouched. -/
theorem c1_mask_filtering (buildDebug : Bool) (w : World) (st : LogState)
    (level : LEVELS) (msg source code : String) (ts : Tm)
    (hvis : level ≠ LEVELS.DBG ∨ (st.showDebug || buildDebug) = true) :
    (Log.log buildDebug w st level msg source code ts).2.streams =
      st.streams.map fun p =>
        (p.1,
         if p.2.levels &&& levelVal level = levelVal level
         then { p.2 with handled := p.2.handled ++ [⟨ts, level, msg, source, code⟩] }
         else p.2) := by
  rw [log_visible buildDebug w st level msg source code ts hvis]
  exact dispatch_snd w st.streams ⟨ts, level, msg, source, code⟩

/-- Witness for C1: two destinations with masks 3 = DBG|INFO and
4 = WARNING; an INFO event reaches exactly the first. -/
theorem c1_mask_filtering_witness :
    (Log.log false ⟨fun _ => true, [], ""⟩
        ⟨[("a", ⟨3, StreamKind.archive, []⟩), ("b", ⟨4, StreamKind.archive, []⟩)], false⟩
        LEVELS.INFO ("m") ("") ("") ⟨2000, 1, 1, 12, 0, 0⟩).2.streams =
      [("a", ⟨3, StreamKind.archive, [⟨⟨2000, 1, 1, 12, 0, 0⟩, LEVELS.INFO, "m", "", ""⟩]⟩),
       ("b", ⟨4, StreamKind.archive, []⟩)] :=
  (c1_mask_filtering false ⟨fun _ => true, [], ""⟩
      ⟨[("a", ⟨3, StreamKind.archive, []⟩), ("b", ⟨4, StreamKind.archive, []⟩)], false⟩
      LEVELS.INFO ("m") ("") ("") ⟨2000, 1, 1, 12, 0, 0⟩
      (Or.inl (by decide))).trans (by decide)

/-- C4: with a non-debug build and showDebug false, a DBG log call is a
no-op (world and state are returned unchanged, so no destination is
notified); after forceDebug true, DBG events are dispatched normally; and
the flag has no effect on the dispatch of any level other than DBG. -/
theorem c4_debug_gating :
    (∀ (w : World) (st : LogState) (msg source code : String) (ts : Tm),
        st.showDebug = false →
        Log.log false w st LEVELS.DBG msg source code ts = (w, st)) ∧
    (∀ (w : World) (st : LogState) (msg source code : String) (ts : Tm),
        (Log.log false w (Log.forceDebug st true) LEVELS.DBG msg source code ts).2.streams =
          st.streams.map fun p =>
            (p.1,
             if p.2.levels &&& levelVal LEVELS.DBG = levelVal LEVELS.DBG
             then { p.2 with handled := p.2.handled ++ [⟨ts, LEVELS.DBG, msg, source, code⟩] }
             else p.2)) ∧
    (∀ (buildDebug b : Bool) (w : World) (st : LogState) (level : LEVELS)
        (msg source code : String) (ts : Tm), level ≠ LEVELS.DBG →
        Log.log buildDebug w (Log.forceDebug st b) level msg source code ts =
          ((Log.log buildDebug w st level msg source code ts).1,
           Log.forceDebug (Log.log buildDebug w st level msg source code ts).2 b)) := by
  refine ⟨?_, ?_, ?_⟩
  · intro w st msg source code ts h
    simp [Log.log, h]
  · intro w st msg source code ts
    rw [log_visible false w (Log.forceDebug st true) LEVELS.DBG msg source code ts
      (Or.inr rfl)]
    exact dispatch_snd w st.streams ⟨ts, LEVELS.DBG, msg, source, code⟩
  · intro buildDebug b w st level msg source code ts h
    simp only [Log.log, Log.forceDebug]
    rw [if_pos (Or.inl h), if_pos (Or.inl h)]

/-- Witness for C4: a DBG event is dropped with the flag off, dispatched
after forceDebug true, and an INFO dispatch is unaffected by the flag. -/
theorem c4_debug_gating_witness :
    (Log.log false ⟨fun _ => true, [], ""⟩ ⟨[("a", ⟨31, StreamKind.archive, []⟩)], false⟩
        LEVELS.DBG ("d") ("") ("") ⟨2000, 1, 1, 12, 0, 0⟩ =
      (⟨fun _ => true, [], ""⟩, ⟨[("a", ⟨31, StreamKind.archive, []⟩)], false⟩)) ∧
    ((Log.log false ⟨fun _ => true, [], ""⟩
        (Log.forceDebug ⟨[("a", ⟨31, StreamKind.archive, []⟩)], false⟩ true)
        LEVELS.DBG ("d") ("") ("") ⟨2000, 1, 1, 12, 0, 0⟩).2.streams =
      [("a", ⟨31, StreamKind.archive,
        [⟨⟨2000, 1, 1, 12, 0, 0⟩, LEVELS.DBG, "d", "", ""⟩]⟩)]) ∧
    (Log.log false ⟨fun _ => true, [], ""⟩ (Log.forceDebug ⟨[], false⟩ true)
        LEVELS.INFO ("m") ("") ("") ⟨2000, 1, 1, 12, 0, 0⟩ =
      ((Log.log false ⟨fun _ => true, [], ""⟩ ⟨[], false⟩
          LEVELS.INFO ("m") ("") ("") ⟨2000, 1, 1, 12, 0, 0⟩).1,
       Log.forceDebug (Log.log false ⟨fun _ => true, [], ""⟩ ⟨[], false⟩
          LEVELS.INFO ("m") ("") ("") ⟨2000, 1, 1, 12, 0, 0⟩).2 true)) :=
  ⟨c4_debug_gating.1 ⟨fun _ => true, [], ""⟩ ⟨[("a", ⟨31, StreamKind.archive, []⟩)], false⟩
      ("d") ("") ("") ⟨2000, 1, 1, 12, 0, 0⟩ rfl,
   (c4_debug_gating.2.1 ⟨fun _ => true, [], ""⟩ ⟨[("a", ⟨31, StreamKind.archive, []⟩)], false⟩
      ("d") ("") ("") ⟨2000, 1, 1, 12, 0, 0⟩).trans (by decide),
   c4_debug_gating.2.2 false true ⟨fun _ => true, [], ""⟩ ⟨[], false⟩
      LEVELS.INFO ("m") ("") ("") ⟨2000, 1, 1, 12, 0, 0⟩ (by decide)⟩

/-- C5: getStream of a never-registered name is none; right after
addStream the name maps to the added destination; after a subsequent
removeStream the returned value is that destination and the name maps to
none again. -/
theorem c5_registry_lookup :
    (∀ (st : LogState) (name : String),
        (∀ p ∈ st.streams, p.1 ≠ name) → Log.getStream st name = none) ∧
    (∀ (st : LogState) (name : String) (d : StreamObj),
        Log.getStream (Log.addStream st name d) name = some d) ∧
    (∀ (st : LogState) (name : String) (d : StreamObj), StreamsWF st.streams →
        (Log.removeStream (Log.addStream st name d) name).1 = some d ∧
        Log.getStream (Log.removeStream (Log.addStream st name d) name).2 name = none) := by
  refine ⟨?_, ?_, ?_⟩
  · intro st name h
    exact mapFind_eq_none st.streams name h
  · intro st name d
    exact mapFind_insert_self st.streams name d
  · intro st name d hwf
    rw [removeStream_found (Log.addStream st name d) name d
      (mapFind_insert_self st.streams name d)]
    refine ⟨rfl, ?_⟩
    exact mapFind_mapErase _ name (pairwise_mapInsert st.streams name d hwf)

/-- Witness for C5: the default registry, the name "Target" and a concrete
archive stream. -/
theorem c5_registry_lookup_witness :
    Log.getStream Log.initState ("Target") = none ∧
    Log.getStream (Log.addStream Log.initState ("Target") ⟨3, StreamKind.archive, []⟩)
      ("Target") = some ⟨3, StreamKind.archive, []⟩ ∧
    (Log.removeStream (Log.addStream Log.initState ("Target") ⟨3, StreamKind.archive, []⟩)
      ("Target")).1 = some ⟨3, StreamKind.archive, []⟩ ∧
    Log.getStream (Log.removeStream
      (Log.addStream Log.initState ("Target") ⟨3, StreamKind.archive, []⟩) ("Target")).2
      ("Target") = none :=
  ⟨c5_registry_lookup.1 Log.initState ("Target") (by decide),
   c5_registry_lookup.2.1 Log.initState ("Target") ⟨3, StreamKind.archive, []⟩,
   (c5_registry_lookup.2.2 Log.initState ("Target") ⟨3, StreamKind.archive, []⟩ (by decide)).1,
   (c5_registry_lookup.2.2 Log.initState ("Target") ⟨3, StreamKind.archive, []⟩ (by decide)).2⟩

/-- C7: on handle, the file destination appends the rendered event when the
file can be opened and silently drops it otherwise, raising no error either
way; and which destinations get notified in a dispatch never depends on the
world, hence not on any file failure. -/
theorem c7_file_errors :
    (∀ (w : World) (file : String) (lv : Nat) (hd : List Event) (e : Event),
        w.openable file = true →
        Stream.handle w ⟨lv, StreamKind.textFile file, hd⟩ e =
          ({ w with fs := fsAppend w.fs file (Event.toString e) },
           ⟨lv, StreamKind.textFile file, hd ++ [e]⟩)) ∧
    (∀ (w : World) (file : String) (lv : Nat) (hd : List Event) (e : Event),
        w.openable file = false →
        Stream.handle w ⟨lv, StreamKind.textFile file, hd⟩ e =
          (w, ⟨lv, StreamKind.textFile file, hd ++ [e]⟩)) ∧
    (∀ (w w' : World) (ss : List (String × StreamObj)) (e : Event),
        (Log.dispatch w ss e).2 = (Log.dispatch w' ss e).2) := by
  refine ⟨?_, ?_, ?_⟩
  · intro w file lv hd e h
    simp [Stream.handle, h]
  · intro w file lv hd e h
    simp [Stream.handle, h]
  · intro w w' ss e
    rw [dispatch_snd, dispatch_snd]

/-- Witness for C7: a concrete unopenable and openable file, and a
dispatch whose notifications agree across the two worlds. -/
theorem c7_file_errors_witness :
    Stream.handle ⟨fun _ => false, [], ""⟩
        ⟨31, StreamKind.textFile ("log.txt"), []⟩ Event.defaultCtor =
      (⟨fun _ => false, [], ""⟩,
       ⟨31, StreamKind.textFile ("log.txt"), [Event.defaultCtor]⟩) ∧
    Stream.handle ⟨fun _ => true, [], ""⟩
        ⟨31, StreamKind.textFile ("log.txt"), []⟩ Event.defaultCtor =
      (⟨fun _ => true, fsAppend [] ("log.txt") (Event.toString Event.defaultCtor), ""⟩,
       ⟨31, StreamKind.textFile ("log.txt"), [Event.defaultCtor]⟩) ∧
    (Log.dispatch ⟨fun _ => false, [], ""⟩
        [("a", ⟨31, StreamKind.archive, []⟩)] Event.defaultCtor).2 =
      (Log.dispatch ⟨fun _ => true, [], ""⟩
        [("a", ⟨31, StreamKind.archive, []⟩)] Event.defaultCtor).2 :=
  ⟨c7_file_errors.2.1 ⟨fun _ => false, [], ""⟩ ("log.txt") 31 [] Event.defaultCtor rfl,
   c7_file_errors.1 ⟨fun _ => true, [], ""⟩ ("log.txt") 31 [] Event.defaultCtor rfl,
   c7_file_errors.2.2 ⟨fun _ => false, [], ""⟩ ⟨fun _ => true, [], ""⟩
     [("a", ⟨31, StreamKind.archive, []⟩)] Event.defaultCtor⟩

/-- C9: in every reachable state the registry maps each name to at most
one destination (the map invariant is preserved by every operation), and
addStream with an existing name is not rejected: afterwards the name maps
to the newly added destination and to it alone. -/
theorem c9_unique_overwrite :
    (∀ ss : List (String × StreamObj), StreamsWF ss →
        ∀ name : String, (ss.filter fun p => p.1 == name).length ≤ 1) ∧
    (∀ (st : LogState) (name : String) (d : StreamObj), StreamsWF st.streams →
        StreamsWF (Log.addStream st name d).streams) ∧
    (∀ (st : LogState) (name : String), StreamsWF st.streams →
        StreamsWF (Log.removeStream st name).2.streams) ∧
    (∀ (buildDebug : Bool) (w : World) (st : LogState) (level : LEVELS)
        (msg source code : String) (ts : Tm), StreamsWF st.streams →
        StreamsWF (Log.log buildDebug w st level msg source code ts).2.streams) ∧
    (∀ (st : LogState) (name : String) (d : StreamObj),
        Log.getStream (Log.addStream st name d) name = some d) ∧
    (∀ (st : LogState) (name : String) (d : StreamObj), StreamsWF st.streams →
        ((Log.addStream st name d).streams.filter fun p => p.1 == name).length = 1) := by
  refine ⟨?_, ?_, ?_, ?_, ?_, ?_⟩
  · intro ss h name
    exact filter_key_length_le_one ss name h
  · intro st name d h
    exact pairwise_mapInsert st.streams name d h
  · intro st name h
    cases hfind : Log.getStream st name with
    | none => simpa [Log.removeStream, hfind] using h
    | some r =>
      simp only [Log.removeStream, hfind]
      exact List.Pairwise.sublist (mapErase_sublist st.streams name) h
  · intro buildDebug w st level msg source code ts h
    simp only [Log.log]
    split_ifs with hc
    · rw [dispatch_snd]
      exact List.pairwise_map.mpr (h.imp fun hab => hab)
    · exact h
  · intro st name d
    exact mapFind_insert_self st.streams name d
  · intro st name d h
    exact filter_key_mapInsert_length st.streams name d h

/-- Witness for C9: the seeded default registry, overwriting the name
"defaultConsole". -/
theorem c9_unique_overwrite_witness :
    ((Log.initState.streams.filter fun p => p.1 == "defaultConsole").length ≤ 1) ∧
    StreamsWF (Log.addStream Log.initState ("defaultConsole")
      ⟨3, StreamKind.archive, []⟩).streams ∧
    StreamsWF (Log.removeStream Log.initState ("defaultConsole")).2.streams ∧
    StreamsWF (Log.log false ⟨fun _ => true, [], ""⟩ Log.initState
      LEVELS.INFO ("m") ("") ("") ⟨2000, 1, 1, 12, 0, 0⟩).2.streams ∧
    Log.getStream (Log.addStream Log.initState ("defaultConsole")
      ⟨3, StreamKind.archive, []⟩) ("defaultConsole") = some ⟨3, StreamKind.archive, []⟩ ∧
    ((Log.addStream Log.initState ("defaultConsole")
      ⟨3, StreamKind.archive, []⟩).streams.filter
        fun p => p.1 == "defaultConsole").length = 1 :=
  ⟨c9_unique_overwrite.1 Log.initState.streams (by decide) ("defaultConsole"),
   c9_unique_overwrite.2.1 Log.initState ("defaultConsole") ⟨3, StreamKind.archive, []⟩
     (by decide),
   c9_unique_overwrite.2.2.1 Log.initState ("defaultConsole") (by decide),
   c9_unique_overwrite.2.2.2.1 false ⟨fun _ => true, [], ""⟩ Log.initState
     LEVELS.INFO ("m") ("") ("") ⟨2000, 1, 1, 12, 0, 0⟩ (by decide),
   c9_unique_overwrite.2.2.2.2.1 Log.initState ("defaultConsole") ⟨3, StreamKind.archive, []⟩,
   c9_unique_overwrite.2.2.2.2.2 Log.initState ("defaultConsole") ⟨3, StreamKind.archive, []⟩
     (by decide)⟩
